import Mathlib

/-!
# dart_mssql: the native bridge of `mssql_dart`

A shallow embedding of `src/cpp/dart_mssql/dart_mssql.cpp` and `dart_mssql.h`:
the error sink (`addError`, `oleCheck`, `memoryCheck`), the accessor builders,
the connection-string construction and provider sequence of `sqlConnect`, the
provider sequence and clean-up of `sqlExecute`, and the rounding macros.

Conventions of the embedding.
* A C `int` is an `Int` kept in range by `wrapInt32`; an `HRESULT` is such an `int`.
* A `char` buffer is the `List Char` of the bytes it addresses; the C string it
  holds is the part before the first NUL (`cstr`).
* A pointer that may be null is an `Option`.
* The OLE DB provider is an explicit record of call outcomes; the calls the code
  makes are recorded in a trace.
-/

set_option linter.unusedVariables false
set_option linter.unnecessarySeqFocus false

namespace DartMssql

/-! ## Machine integers -/

/-- The value of a 32-bit two's-complement `int` that holds the integer `v`. -/
def wrapInt32 (v : Int) : Int := (v + 2147483648) % 4294967296 - 2147483648

/-- The largest `int`. -/
def INT_MAX : Int := 2147483647

/-- The smallest `int`. -/
def INT_MIN : Int := -2147483648

/-- The macro `FAILED(hr)`: the status code is negative. -/
def FAILED (hr : Int) : Bool := decide (hr < 0)

/-- The status code `E_OUTOFMEMORY` (0x8007000E as a signed 32-bit value). -/
def E_OUTOFMEMORY : Int := wrapInt32 0x8007000E

/-! ## C strings and the CRT calls the code makes -/

/-- The NUL byte. -/
def NUL : Char := Char.ofNat 0

/-- The C string at the start of `mem`: the bytes before the first NUL. -/
def cstr (mem : List Char) : List Char := mem.takeWhile (fun c => c != NUL)

/-- The CRT call `strncat_s(dest, size, src, _TRUNCATE)` on the buffer `dest`, of
which the first `size` bytes may be used. When those bytes hold a terminated
string, as much of `src` as fits is appended while leaving room for the
terminator; the bytes after the new terminator are kept. When they hold no
terminator the call reports an invalid parameter and, execution continuing,
leaves the buffer as it was. The result is the buffer after the call. -/
def strncat_s_TRUNCATE (dest : List Char) (size : Nat) (src : List Char) : List Char :=
  let win := dest.take size
  let old := cstr win
  if old.length < win.length then
    let app := (cstr src).take (win.length - 1 - old.length)
    old ++ app ++ [NUL] ++ dest.drop (old.length + app.length + 1)
  else dest

/-! ## The error sink -/

/-- The three error-sink arguments every function of the bridge takes:
`int* errorCount` (with the `int` it points to), `char* errorMessages` (with the
bytes it points to) and `int errorMsgBufferSize`. -/
structure ErrorSink where
  errorCount : Option Int
  errorMessages : Option (List Char)
  errorMsgBufferSize : Int
deriving DecidableEq, Repr

/-- `addError` (dart_mssql.cpp 50-57): append `msg` when a buffer, a positive
size and a message are given; then increment the counter when there is one. -/
def addError (s : ErrorSink) (msg : Option (List Char)) : ErrorSink :=
  let s1 : ErrorSink :=
    match s.errorMessages, msg with
    | some buf, some m =>
      if s.errorMsgBufferSize > 0 then
        { s with errorMessages := some (strncat_s_TRUNCATE buf s.errorMsgBufferSize.toNat m) }
      else s
    | _, _ => s
  match s1.errorCount with
  | some c => { s1 with errorCount := some (wrapInt32 (c + 1)) }
  | none => s1

/-- The text held by the sink's buffer (empty when no buffer is supplied). -/
def ErrorSink.text (s : ErrorSink) : List Char :=
  match s.errorMessages with
  | some buf => cstr (buf.take s.errorMsgBufferSize.toNat)
  | none => []

/-- A sequence of `addError` calls on one sink: the final sink, and the number
of calls that appended something to the buffer's text. -/
def addErrors : ErrorSink → List (Option (List Char)) → ErrorSink × Nat
  | s, [] => (s, 0)
  | s, m :: ms =>
    let s1 := addError s m
    let r := addErrors s1 ms
    (r.1, (if s1.text = s.text then 0 else 1) + r.2)

/-- The sink of the capacity test: counter 0 and an empty buffer of 32 bytes. -/
def sink32 : ErrorSink := ⟨some 0, some (List.replicate 32 NUL), 32⟩

/-- A message of 20 bytes, all equal to `c`. -/
def msg20 (c : Char) : List Char := List.replicate 20 c

/-! ## `oleCheck` -/

/-- The identity of an interface; an interface pointer is an `Option Handle`,
with `none` for the null pointer. -/
abbrev Handle := Nat

/-- The hexadecimal digit `d` in upper case, as `%X` prints it. -/
def hexDigit (d : Nat) : Char :=
  if d < 10 then Char.ofNat (48 + d) else Char.ofNat (55 + d)

/-- The conversion `%08X` of an `unsigned int`. -/
def hex8 (v : Nat) : List Char :=
  [7, 6, 5, 4, 3, 2, 1, 0].map (fun i => hexDigit (v / 16 ^ i % 16))

/-- The cast `(unsigned int)hr`. -/
def toUnsigned32 (hr : Int) : Nat := (hr % 4294967296).toNat

/-- The standard `snprintf(buf, size, ...)`: the text stored (at most
`size - 1` characters) and the value returned (the length of the full text). -/
def snprintf (size : Nat) (formatted : List Char) : List Char × Nat :=
  (formatted.take (size - 1), formatted.length)

/-- The text `snprintf(buf, sizeof(buf), "HRESULT falhou: 0x%08X\n", (unsigned int)hr)`
leaves in `char buf[64]`. -/
def hresultMessage (hr : Int) : List Char :=
  (snprintf 64 ("HRESULT falhou: 0x".toList ++ hex8 (toUnsigned32 hr) ++ "\n".toList)).1

/-- The message `oleCheck` records in place of `DumpErrorInfo`. -/
def dumpErrorInfoMessage : List Char := "[DumpErrorInfo] Not fully implemented.\n".toList

/-- `oleCheck` (dart_mssql.cpp 59-71): on a failed status, one error when an
object is given and one more, carrying the status, when a counter is given.
Returns the status and the sink after the call. -/
def oleCheck (hr : Int) (pObjectWithError : Option Handle) (s : ErrorSink) : Int × ErrorSink :=
  let s1 :=
    if FAILED hr && pObjectWithError.isSome then addError s (some dumpErrorInfoMessage) else s
  let s2 :=
    if FAILED hr && s1.errorCount.isSome then addError s1 (some (hresultMessage hr)) else s1
  (hr, s2)

/-- `memoryCheck` (dart_mssql.cpp 73-80). -/
def memoryCheck (hr : Int) (pv : Option Handle) (s : ErrorSink) : Int × ErrorSink :=
  match pv with
  | none => oleCheck E_OUTOFMEMORY none s
  | some _ => (hr, s)

/-! ## The accessor builders -/

/-- The interface pointers `sqlExecute` declares (dart_mssql.cpp 225-230). -/
inductive Iface where
  | pSession
  | pIDBCreateSession
  | pIDBCreateCommand
  | pICommandText
  | pIColumnsInfo
  | pIRowset
deriving DecidableEq, Repr

/-- The provider calls `sqlExecute` makes. -/
inductive ExecCall where
  | QueryInterface_IDBCreateSession
  | CreateSession
  | QueryInterface_IDBCreateCommand
  | CreateCommand
  | SetCommandText
  | Execute
deriving DecidableEq, Repr

/-- What `sqlExecute` does to the provider: a call, an interface handed over
by a call that succeeded, or the `Release` of the interface a pointer holds. -/
inductive ExecEvent where
  | call (c : ExecCall)
  | acquire (i : Iface) (h : Handle)
  | release (i : Iface) (h : Handle)
deriving DecidableEq, Repr

/-- The outcomes of `malloc` and of the provider calls of `sqlExecute`: each
call gives a status and the value it leaves in its out-pointer; `Execute` also
gives the row count. -/
structure ExecProvider where
  malloc : Bool
  queryCreateSession : Int × Option Handle
  createSession : Int × Option Handle
  queryCreateCommand : Int × Option Handle
  createCommand : Int × Option Handle
  setCommandText : Int
  execute : Int × Int × Option Handle
deriving DecidableEq, Repr

/-- The local interface pointers of `sqlExecute`. -/
structure Locals where
  pSession : Option Handle
  pIDBCreateSession : Option Handle
  pIDBCreateCommand : Option Handle
  pICommandText : Option Handle
  pIColumnsInfo : Option Handle
  pIRowset : Option Handle
deriving DecidableEq, Repr

/-- What `sqlExecute` returns: the returned pointer (`none` is NULL, `some t` a
buffer holding the text `t`), the sink, and the events in order. -/
structure ExecResult where
  ret : Option (List Char)
  sink : ErrorSink
  events : List ExecEvent
deriving DecidableEq, Repr

/-- The interface a call hands over: a call that succeeded and left a non-null
pointer gave the caller a reference. -/
def acquired (hr : Int) (i : Iface) (out : Option Handle) : List ExecEvent :=
  match out with
  | some h => if FAILED hr then [] else [.acquire i h]
  | none => []

/-- The statement `if (p) p->Release();`. -/
def releaseIf (i : Iface) (p : Option Handle) : List ExecEvent :=
  match p with
  | some h => [.release i h]
  | none => []

/-- The block after the label `CLEANUP` (dart_mssql.cpp 279-285). -/
def CLEANUP (l : Locals) : List ExecEvent :=
  releaseIf .pIRowset l.pIRowset ++ releaseIf .pICommandText l.pICommandText ++
    releaseIf .pIDBCreateCommand l.pIDBCreateCommand ++ releaseIf .pSession l.pSession ++
    releaseIf .pIDBCreateSession l.pIDBCreateSession ++ releaseIf .pIColumnsInfo l.pIColumnsInfo

/-- The conversion `%d` of an `int`. -/
def fmtInt (v : Int) : List Char :=
  if v < 0 then '-' :: Nat.toDigits 10 v.natAbs else Nat.toDigits 10 v.toNat

/-- The two closing `snprintf` calls of `sqlExecute` (dart_mssql.cpp 276-277) on
a result buffer of `resultSize` bytes holding `text`, with `used` bytes counted
so far: the text of the buffer afterwards. -/
def finishResult (resultSize : Nat) (text : List Char) (used : Nat) (totalRows : Int) :
    List Char :=
  let w1 := snprintf (resultSize - used)
    ("\n  \"rowsAffected\": ".toList ++ fmtInt (wrapInt32 totalRows) ++ "\n".toList)
  let text1 := text.take used ++ w1.1
  let used1 := used + w1.2
  let w2 := snprintf (resultSize - used1) "\x7d\n".toList
  text1.take used1 ++ w2.1

/-- `sqlExecute` (dart_mssql.cpp 218-288), for a non-null `pInitialize`. The
result is `none` when the code calls a method through a null pointer, which a
provider that reports success without giving an interface would cause. -/
def sqlExecute (p : ExecProvider) (s0 : ErrorSink) : Option ExecResult :=
  let l0 : Locals := ⟨none, none, none, none, none, none⟩
  let resultSize := 8192
  if !p.malloc then
    some ⟨none, addError s0 (some "Falha em alocar resultBuffer.\n".toList), []⟩
  else
    let resultBuffer : List Char := []
    let used := 0
    let hr := p.queryCreateSession.1
    let l1 := { l0 with pIDBCreateSession := p.queryCreateSession.2 }
    let e1 := [ExecEvent.call .QueryInterface_IDBCreateSession] ++
      acquired hr .pIDBCreateSession l1.pIDBCreateSession
    let s1 := (oleCheck hr l1.pIDBCreateSession s0).2
    if (oleCheck hr l1.pIDBCreateSession s0).1 < 0 then
      some ⟨some resultBuffer, s1, e1 ++ CLEANUP l1⟩
    else
    match l1.pIDBCreateSession with
    | none => none
    | some _ =>
    let hr := p.createSession.1
    let l2 := { l1 with pSession := p.createSession.2 }
    let e2 := e1 ++ [ExecEvent.call .CreateSession] ++ acquired hr .pSession l2.pSession
    let s2 := (oleCheck hr l2.pSession s1).2
    if (oleCheck hr l2.pSession s1).1 < 0 then
      some ⟨some resultBuffer, s2, e2 ++ CLEANUP l2⟩
    else
    match l2.pSession with
    | none => none
    | some _ =>
    let hr := p.queryCreateCommand.1
    let l3 := { l2 with pIDBCreateCommand := p.queryCreateCommand.2 }
    let e3 := e2 ++ [ExecEvent.call .QueryInterface_IDBCreateCommand] ++
      acquired hr .pIDBCreateCommand l3.pIDBCreateCommand
    let s3 := (oleCheck hr l3.pIDBCreateCommand s2).2
    if (oleCheck hr l3.pIDBCreateCommand s2).1 < 0 then
      some ⟨some resultBuffer, s3, e3 ++ CLEANUP l3⟩
    else
    match l3.pIDBCreateCommand with
    | none => none
    | some _ =>
    let hr := p.createCommand.1
    let l4 := { l3 with pICommandText := p.createCommand.2 }
    let e4 := e3 ++ [ExecEvent.call .CreateCommand] ++
      acquired hr .pICommandText l4.pICommandText
    let s4 := (oleCheck hr l4.pICommandText s3).2
    if (oleCheck hr l4.pICommandText s3).1 < 0 then
      some ⟨some resultBuffer, s4, e4 ++ CLEANUP l4⟩
    else
    match l4.pICommandText with
    | none => none
    | some _ =>
    let hr := p.setCommandText
    let e5 := e4 ++ [ExecEvent.call .SetCommandText]
    let s5 := (oleCheck hr l4.pICommandText s4).2
    if (oleCheck hr l4.pICommandText s4).1 < 0 then
      some ⟨some resultBuffer, s5, e5 ++ CLEANUP l4⟩
    else
    let hr := p.execute.1
    let totalRows := p.execute.2.1
    let l6 := { l4 with pIRowset := p.execute.2.2 }
    let e6 := e5 ++ [ExecEvent.call .Execute] ++ acquired hr .pIRowset l6.pIRowset
    let s6 := (oleCheck hr l6.pICommandText s5).2
    if (oleCheck hr l6.pICommandText s5).1 < 0 then
      some ⟨some resultBuffer, s6, e6 ++ CLEANUP l6⟩
    else
      some ⟨some (finishResult resultSize resultBuffer used totalRows), s6, e6 ++ CLEANUP l6⟩

/-- The number of times the interface of pointer `i` with handle `h` was
handed over. -/
def acquisitions (es : List ExecEvent) (i : Iface) (h : Handle) : Nat :=
  es.count (.acquire i h)

/-- The number of times the interface of pointer `i` with handle `h` was
released. -/
def releases (es : List ExecEvent) (i : Iface) (h : Handle) : Nat :=
  es.count (.release i h)

/-- A failed provider call leaves its out-pointer null. -/
def FailedLeavesNull (p : ExecProvider) : Prop :=
  (FAILED p.queryCreateSession.1 = true → p.queryCreateSession.2 = none) ∧
  (FAILED p.createSession.1 = true → p.createSession.2 = none) ∧
  (FAILED p.queryCreateCommand.1 = true → p.queryCreateCommand.2 = none) ∧
  (FAILED p.createCommand.1 = true → p.createCommand.2 = none) ∧
  (FAILED p.execute.1 = true → p.execute.2.2 = none)

/-- A provider call that succeeds gives the interface asked for (for the four
calls whose interface `sqlExecute` goes on to use). -/
def SucceededGivesInterface (p : ExecProvider) : Prop :=
  (FAILED p.queryCreateSession.1 = false → p.queryCreateSession.2 ≠ none) ∧
  (FAILED p.createSession.1 = false → p.createSession.2 ≠ none) ∧
  (FAILED p.queryCreateCommand.1 = false → p.queryCreateCommand.2 ≠ none) ∧
  (FAILED p.createCommand.1 = false → p.createCommand.2 ≠ none)

/-- Some step of `sqlExecute` fails fatally: the allocation, or a provider call. -/
def ExecProvider.fails (p : ExecProvider) : Bool :=
  !p.malloc || FAILED p.queryCreateSession.1 || FAILED p.createSession.1 ||
    FAILED p.queryCreateCommand.1 || FAILED p.createCommand.1 || FAILED p.setCommandText ||
    FAILED p.execute.1

/-! ### The shape of a result document -/

/-- The white space of JSON. -/
def isJsonSpace (c : Char) : Bool := c = ' ' || c = '\n' || c = '\r' || c = '\t'

/-- Conditions every serialized ResultDocument meets: the text is enclosed in
braces and names the three members `columns`, `rows` and `rowsAffected`. -/
def ResultDocumentShape (t : List Char) : Prop :=
  (t.dropWhile isJsonSpace).head? = some '\x7b' ∧
  (t.reverse.dropWhile isJsonSpace).head? = some '\x7d' ∧
  "\"columns\"".toList <:+: t ∧ "\"rows\"".toList <:+: t ∧ "\"rowsAffected\"".toList <:+: t

instance (t : List Char) : Decidable (ResultDocumentShape t) := by
  unfold ResultDocumentShape
  infer_instance

/-- The outcome the caller is promised: a well-formed document, or no document
(a null pointer or an empty text) together with a non-empty error log, that is
at least one message recorded and a positive count. -/
def DocumentOrErrorLog (r : ExecResult) : Prop :=
  (∃ t, r.ret = some t ∧ ResultDocumentShape t) ∨
  ((r.ret = none ∨ r.ret = some []) ∧ r.sink.text ≠ [] ∧
    ∃ c, r.sink.errorCount = some c ∧ 0 < c)

/-! ## The rounding macros -/

/-- The macro `ROUNDUP_(size, amount)` of dart_mssql.h, over a `DBBYTEOFFSET` of
`w` bits (an unsigned type declared in the OLE DB headers):
`((DBBYTEOFFSET)(size) + ((amount) - 1)) & ~((DBBYTEOFFSET)(amount) - 1)`. -/
def ROUNDUP_ (w size amount : Nat) : Nat :=
  ((size % 2 ^ w + (amount - 1)) % 2 ^ w) &&& (2 ^ w - 1 - (amount % 2 ^ w + 2 ^ w - 1) % 2 ^ w)

/-- The constant `ROUNDUP_AMOUNT` of dart_mssql.h. -/
def ROUNDUP_AMOUNT : Nat := 8

/-- The macro `ROUNDUP(size)` of dart_mssql.h. -/
def ROUNDUP (w size : Nat) : Nat := ROUNDUP_ w size ROUNDUP_AMOUNT

/-- The macro `ROUND(x,y)` of dart_mssql.cpp, `(((x)+(y-1))&~(y-1))`, on the bit
patterns of a `w`-bit integer type in two's complement. -/
def ROUND (w x y : Nat) : Nat :=
  ((x + (y - 1)) % 2 ^ w) &&& (2 ^ w - 1 - (y - 1) % 2 ^ w)

/-- The macro `ROUNDUP(x)` of dart_mssql.cpp, which stands for `ROUND(x,4)`. -/
def ROUNDUP4 (w x : Nat) : Nat := ROUND w x 4

/-! ## Statements used by the theorems -/

/-- The sink has a buffer of `C` bytes, passed with `errorMsgBufferSize = C`,
that holds a terminated string. -/
def ErrorSink.HasBuffer (s : ErrorSink) (C : Nat) : Prop :=
  ∃ buf, s.errorMessages = some buf ∧ buf.length = C ∧ s.errorMsgBufferSize = (C : Int) ∧
    (cstr buf).length < C

/-- The provider call `c` is reached in the run of `sqlExecute` on the outcomes
`p`: the allocation and every earlier call succeeded. -/
def ExecProvider.reaches (p : ExecProvider) : ExecCall → Bool
  | .QueryInterface_IDBCreateSession => p.malloc
  | .CreateSession => p.malloc && !FAILED p.queryCreateSession.1
  | .QueryInterface_IDBCreateCommand =>
    p.malloc && !FAILED p.queryCreateSession.1 && !FAILED p.createSession.1
  | .CreateCommand =>
    p.malloc && !FAILED p.queryCreateSession.1 && !FAILED p.createSession.1 &&
      !FAILED p.queryCreateCommand.1
  | .SetCommandText =>
    p.malloc && !FAILED p.queryCreateSession.1 && !FAILED p.createSession.1 &&
      !FAILED p.queryCreateCommand.1 && !FAILED p.createCommand.1
  | .Execute =>
    p.malloc && !FAILED p.queryCreateSession.1 && !FAILED p.createSession.1 &&
      !FAILED p.queryCreateCommand.1 && !FAILED p.createCommand.1 &&
      !FAILED p.setCommandText

/-- The provider calls the outcomes `p` let `sqlExecute` make: the six calls in
order, up to and including the first that fails. -/
def ExecProvider.callsMade (p : ExecProvider) : List ExecCall :=
  [ExecCall.QueryInterface_IDBCreateSession, .CreateSession, .QueryInterface_IDBCreateCommand,
    .CreateCommand, .SetCommandText, .Execute].filter p.reaches

/-- The provider hands the interface `h` over for the pointer `i`: the call
that fills `i` is reached, succeeds, and leaves `h` in its out-pointer. No call
fills `pIColumnsInfo`. -/
def ExecProvider.handsOver (p : ExecProvider) (i : Iface) (h : Handle) : Bool :=
  match i with
  | .pIDBCreateSession =>
    p.reaches .QueryInterface_IDBCreateSession && !FAILED p.queryCreateSession.1 &&
      p.queryCreateSession.2 == some h
  | .pSession =>
    p.reaches .CreateSession && !FAILED p.createSession.1 && p.createSession.2 == some h
  | .pIDBCreateCommand =>
    p.reaches .QueryInterface_IDBCreateCommand && !FAILED p.queryCreateCommand.1 &&
      p.queryCreateCommand.2 == some h
  | .pICommandText =>
    p.reaches .CreateCommand && !FAILED p.createCommand.1 && p.createCommand.2 == some h
  | .pIRowset => p.reaches .Execute && !FAILED p.execute.1 && p.execute.2.2 == some h
  | .pIColumnsInfo => false

/-- The provider calls among the events, in order. -/
def callsOf (es : List ExecEvent) : List ExecCall :=
  es.filterMap (fun e => match e with
    | .call c => some c
    | _ => none)

/-- One when the pointer `i` holding `o` is the pointer `j` holding the handle
`h`, zero otherwise. -/
def slotCount (i : Iface) (o : Option Handle) (j : Iface) (h : Handle) : Nat :=
  if i = j ∧ o = some h then 1 else 0

/-- A provider for which every call succeeds and `Execute` reports a result
set of zero rows with a row count of 0. -/
def zeroRowsProvider : ExecProvider :=
  ⟨true, (0, some 1), (0, some 2), (0, some 3), (0, some 4), 0, (0, 0, some 5)⟩

/-- A provider whose first call, the `QueryInterface` for `IDBCreateSession`,
fails with `E_NOINTERFACE` and hands over nothing. -/
def noInterfaceProvider : ExecProvider :=
  ⟨true, (-2147467262, none), (0, some 2), (0, some 3), (0, some 4), 0, (0, 0, some 5)⟩

/-- A provider whose `CreateCommand` fails with `E_FAIL` after a session was
opened. -/
def noCommandProvider : ExecProvider :=
  ⟨true, (0, some 1), (0, some 2), (0, some 3), (-2147467259, none), 0, (0, 0, some 5)⟩

/-- A sink with a buffer of 32 bytes and no counter (`errorCount` is null). -/
def sinkNoCounter : ErrorSink := ⟨none, some (List.replicate 32 NUL), 32⟩

/-! ## Theorems: the error sink -/

theorem nul_not_mem_cstr (mem : List Char) : NUL ∉ cstr mem := by
  intro h
  have := List.mem_takeWhile_imp h
  simp at this

theorem cstr_append_nul (a r : List Char) (h : NUL ∉ a) : cstr (a ++ NUL :: r) = a := by
  induction a with
  | nil => simp [cstr, List.takeWhile]
  | cons x xs ih =>
    have hx : x ≠ NUL := fun e => h (by simp [e])
    have hxs : NUL ∉ xs := fun e => h (by simp [e])
    have hb : (x != NUL) = true := by simpa using hx
    have := ih hxs
    simp only [cstr] at this ⊢
    simp only [List.cons_append, List.takeWhile_cons, hb, this, if_true]

theorem cstr_of_not_mem (a : List Char) (h : NUL ∉ a) : cstr a = a := by
  induction a with
  | nil => simp [cstr]
  | cons x xs ih =>
    have hx : x ≠ NUL := fun e => h (by simp [e])
    have hxs : NUL ∉ xs := fun e => h (by simp [e])
    have hb : (x != NUL) = true := by simpa using hx
    have := ih hxs
    simp only [cstr] at this ⊢
    simp only [List.cons_append, List.takeWhile_cons, hb, this, if_true]

theorem cstr_split (mem : List Char) (h : (cstr mem).length < mem.length) :
    ∃ r, mem = cstr mem ++ NUL :: r := by
  induction mem with
  | nil => simp at h
  | cons x xs ih =>
    by_cases hx : x = NUL
    · subst hx
      exact ⟨xs, by simp [cstr, List.takeWhile]⟩
    · have hb : (x != NUL) = true := by simpa using hx
      have e : cstr (x :: xs) = x :: cstr xs := by
        simp only [cstr, List.takeWhile_cons, hb, if_true]
      rw [e] at h ⊢
      simp at h
      obtain ⟨r, hr⟩ := ih h
      exact ⟨r, by simp; exact hr⟩

theorem cstr_take (mem : List Char) (n : Nat) (h : (cstr mem).length < n) :
    cstr (mem.take n) = cstr mem := by
  by_cases hl : (cstr mem).length < mem.length
  · obtain ⟨r, hr⟩ := cstr_split mem hl
    have hn := nul_not_mem_cstr mem
    generalize cstr mem = a at *
    subst hr
    rw [List.take_append_eq_append_take, List.take_of_length_le (by omega)]
    obtain ⟨k, hk⟩ : ∃ k, n - a.length = k + 1 := ⟨n - a.length - 1, by omega⟩
    rw [hk, List.take_succ_cons, cstr_append_nul _ _ hn]
  · have : cstr mem = mem := by
      have hle : (cstr mem).length ≤ mem.length := (List.takeWhile_prefix _).length_le
      have : (cstr mem).length = mem.length := by omega
      exact (List.takeWhile_prefix _).eq_of_length this
    rw [this] at h
    rw [List.take_of_length_le (by omega)]

theorem nul_not_mem_take_cstr (m : List Char) (k : Nat) : NUL ∉ (cstr m).take k :=
  fun h => nul_not_mem_cstr m (List.mem_of_mem_take h)

theorem strncat_s_TRUNCATE_eq (buf m : List Char) (C : Nat)
    (hterm : (cstr buf).length < C) (hcap : C ≤ buf.length) :
    strncat_s_TRUNCATE buf C m =
      cstr buf ++ (cstr m).take (C - 1 - (cstr buf).length) ++ [NUL] ++
        buf.drop ((cstr buf).length + ((cstr m).take (C - 1 - (cstr buf).length)).length + 1) := by
  unfold strncat_s_TRUNCATE
  simp only [cstr_take buf C hterm, List.length_take, Nat.min_eq_left hcap, hterm, if_true]

theorem strncat_s_TRUNCATE_length (buf m : List Char) (C : Nat) :
    (strncat_s_TRUNCATE buf C m).length = buf.length := by
  unfold strncat_s_TRUNCATE
  simp only
  split
  · rename_i h
    simp only [List.length_append, List.length_take, List.length_drop, List.length_cons,
      List.length_nil] at h ⊢
    omega
  · rfl

theorem take_min_length {α : Type} (l : List α) (k : Nat) :
    l.take (min l.length k) = l.take k := by
  rcases Nat.le_total l.length k with h | h
  · rw [Nat.min_eq_left h, List.take_of_length_le (Nat.le_refl _), List.take_of_length_le h]
  · rw [Nat.min_eq_right h]

theorem strncat_s_TRUNCATE_text (buf m : List Char) (C : Nat)
    (hterm : (cstr buf).length < C) (hcap : C ≤ buf.length) :
    cstr ((strncat_s_TRUNCATE buf C m).take C) = (cstr buf ++ cstr m).take (C - 1) := by
  rw [strncat_s_TRUNCATE_eq buf m C hterm hcap]
  have hn : NUL ∉ cstr buf ++ (cstr m).take (C - 1 - (cstr buf).length) := by
    intro h
    rcases List.mem_append.1 h with h | h
    · exact nul_not_mem_cstr _ h
    · exact nul_not_mem_take_cstr _ _ h
  have hlen : (cstr buf ++ (cstr m).take (C - 1 - (cstr buf).length)).length < C := by
    simp only [List.length_append, List.length_take]; omega
  have e : cstr buf ++ (cstr m).take (C - 1 - (cstr buf).length) = (cstr buf ++ cstr m).take (C - 1) := by
    have h1 : (cstr buf).take (C - 1) = cstr buf := List.take_of_length_le (by omega)
    rw [List.take_append_eq_append_take, h1]
  generalize cstr buf ++ (cstr m).take (C - 1 - (cstr buf).length) = a at *
  generalize List.drop _ buf = r
  have : a ++ [NUL] ++ r = a ++ NUL :: r := by simp
  rw [this, cstr_take _ C (by rw [cstr_append_nul _ _ hn]; exact hlen), cstr_append_nul _ _ hn, e]

theorem wrapInt32_of_range (v : Int) (hlo : INT_MIN ≤ v) (hhi : v ≤ INT_MAX) : wrapInt32 v = v := by
  unfold INT_MIN at hlo
  unfold INT_MAX at hhi
  unfold wrapInt32
  omega

theorem addError_errorCount (s : ErrorSink) (msg : Option (List Char)) :
    (addError s msg).errorCount = s.errorCount.map (fun c => wrapInt32 (c + 1)) := by
  rcases s with ⟨cnt, buf, sz⟩
  by_cases h : 0 < sz <;> cases cnt <;> cases buf <;> cases msg <;> simp [addError, h]

theorem addError_errorMsgBufferSize (s : ErrorSink) (msg : Option (List Char)) :
    (addError s msg).errorMsgBufferSize = s.errorMsgBufferSize := by
  rcases s with ⟨cnt, buf, sz⟩
  by_cases h : 0 < sz <;> cases cnt <;> cases buf <;> cases msg <;> simp [addError, h]

theorem addError_errorMessages (s : ErrorSink) (buf m : List Char)
    (hbuf : s.errorMessages = some buf) (hsz : 0 < s.errorMsgBufferSize) :
    (addError s (some m)).errorMessages =
      some (strncat_s_TRUNCATE buf s.errorMsgBufferSize.toNat m) := by
  unfold addError
  rcases s with ⟨cnt, b, sz⟩
  simp only at hbuf hsz
  subst hbuf
  cases cnt <;> simp [hsz]

theorem wrapInt32_range (v : Int) : INT_MIN ≤ wrapInt32 v ∧ wrapInt32 v ≤ INT_MAX := by
  unfold INT_MIN INT_MAX wrapInt32
  omega

theorem wrapInt32_succ_add (c k : Int) : wrapInt32 (wrapInt32 (c + 1) + k) = wrapInt32 (c + (k + 1)) := by
  unfold wrapInt32
  omega

/-- C1. With a non-null counter, every call of `addError` adds exactly one to
the counter, whatever the capacity, the buffer (present or not, in any state)
and the message (present or not, truncated or not): after `n` calls the counter
holds the start value plus `n` as a C `int` (wrapped to 32 bits), which is
exactly `n` more than the start value as long as that does not pass `INT_MAX`;
and at most `n` of the calls appended text to the buffer. -/
theorem addError_counts_every_call (s : ErrorSink) (c : Int)
    (msgs : List (Option (List Char)))
    (hc : s.errorCount = some c) (hlo : INT_MIN ≤ c) (hhi : c ≤ INT_MAX) :
    (addErrors s msgs).1.errorCount = some (wrapInt32 (c + msgs.length)) ∧
      (c + msgs.length ≤ INT_MAX → (addErrors s msgs).1.errorCount = some (c + msgs.length)) ∧
      (addErrors s msgs).2 ≤ msgs.length := by
  have key : (addErrors s msgs).1.errorCount = some (wrapInt32 (c + msgs.length)) ∧
      (addErrors s msgs).2 ≤ msgs.length := by
    induction msgs generalizing s c with
    | nil =>
      simp only [addErrors, List.length_nil, Nat.cast_zero, add_zero, le_refl, and_true]
      rw [hc, wrapInt32_of_range c hlo hhi]
    | cons m ms ih =>
      have h1 : (addError s m).errorCount = some (wrapInt32 (c + 1)) := by
        rw [addError_errorCount, hc, Option.map_some']
      have hr := wrapInt32_range (c + 1)
      have := ih (addError s m) (wrapInt32 (c + 1)) h1 hr.1 hr.2
      simp only [addErrors, List.length_cons, Nat.cast_add, Nat.cast_one]
      refine ⟨by rw [this.1, wrapInt32_succ_add], ?_⟩
      split <;> omega
  refine ⟨key.1, fun hfit => ?_, key.2⟩
  rw [key.1, wrapInt32_of_range _ (by have := Int.ofNat_nonneg msgs.length; omega) hfit]

/-- C2. For a capacity `C > 0`, a buffer of `C` bytes holding a terminated
string `old` (length `< C`) and a message `msg`, after `addError` the buffer
still has `C` bytes and holds the first `min (len old + len msg) (C - 1)` bytes
of `old ++ msg`: the text is at most `C - 1` bytes long and `old` is a prefix
of it. -/
theorem addError_appends_what_fits (s : ErrorSink) (buf msg : List Char) (C : Nat)
    (hC : 0 < C) (hsize : s.errorMsgBufferSize = (C : Int))
    (hbuf : s.errorMessages = some buf) (hcap : buf.length = C)
    (hterm : (cstr buf).length < C) :
    ∃ buf1, (addError s (some msg)).errorMessages = some buf1 ∧
      buf1.length = C ∧
      cstr buf1 =
        (cstr buf ++ cstr msg).take (min ((cstr buf).length + (cstr msg).length) (C - 1)) ∧
      (cstr buf1).length ≤ C - 1 ∧
      cstr buf <+: cstr buf1 := by
  have hsz : 0 < s.errorMsgBufferSize := by rw [hsize]; exact_mod_cast hC
  have hnat : s.errorMsgBufferSize.toNat = C := by rw [hsize]; simp
  refine ⟨strncat_s_TRUNCATE buf C msg, ?_, ?_, ?_⟩
  · rw [addError_errorMessages s buf msg hbuf hsz, hnat]
  · rw [strncat_s_TRUNCATE_length, hcap]
  · have ht := strncat_s_TRUNCATE_text buf msg C hterm (by omega)
    have hl : (strncat_s_TRUNCATE buf C msg).length = C := by
      rw [strncat_s_TRUNCATE_length, hcap]
    rw [List.take_of_length_le (by omega)] at ht
    have hmin := take_min_length (cstr buf ++ cstr msg) (C - 1)
    rw [List.length_append] at hmin
    rw [hmin, ht]
    refine ⟨rfl, ?_, ?_⟩
    · rw [List.length_take]; omega
    · rw [List.take_append_eq_append_take, List.take_of_length_le (by omega)]
      exact List.prefix_append _ _

theorem addError_counts_every_call_witness :
    (INT_MIN ≤ 0 ∧ (0 : Int) ≤ INT_MAX ∧
      (0 : Int) + [some (msg20 'a'), none, some (msg20 'c')].length ≤ INT_MAX) ∧
    (addErrors ⟨some 0, none, 0⟩ [some (msg20 'a'), none, some (msg20 'c')]).1.errorCount
      = some (0 + [some (msg20 'a'), none, some (msg20 'c')].length) ∧
    (addErrors ⟨some 0, none, 0⟩ [some (msg20 'a'), none, some (msg20 'c')]).2
      ≤ [some (msg20 'a'), none, some (msg20 'c')].length :=
  ⟨by decide,
    (addError_counts_every_call ⟨some 0, none, 0⟩ 0
      [some (msg20 'a'), none, some (msg20 'c')] rfl (by decide) (by decide)).2.1 (by decide),
    (addError_counts_every_call ⟨some 0, none, 0⟩ 0
      [some (msg20 'a'), none, some (msg20 'c')] rfl (by decide) (by decide)).2.2⟩

theorem addError_appends_what_fits_witness :
    (∃ buf1, (addError (addError sink32 (some (msg20 'a'))) (some (msg20 'b'))).errorMessages
        = some buf1 ∧
      buf1.length = 32 ∧
      cstr buf1 =
        (cstr (msg20 'a' ++ List.replicate 12 NUL) ++ cstr (msg20 'b')).take
          (min ((cstr (msg20 'a' ++ List.replicate 12 NUL)).length + (cstr (msg20 'b')).length)
            (32 - 1)) ∧
      (cstr buf1).length ≤ 32 - 1 ∧
      cstr (msg20 'a' ++ List.replicate 12 NUL) <+: cstr buf1) ∧
    (addErrors sink32 [some (msg20 'a'), some (msg20 'b'), some (msg20 'c')]).1.text
      = (msg20 'a' ++ msg20 'b' ++ msg20 'c').take 31 ∧
    (addErrors sink32 [some (msg20 'a'), some (msg20 'b'), some (msg20 'c')]).1.errorCount
      = some 3 :=
  ⟨addError_appends_what_fits (addError sink32 (some (msg20 'a')))
      (msg20 'a' ++ List.replicate 12 NUL) (msg20 'b') 32 (by decide) rfl (by decide)
      (by decide) (by decide),
    by decide, by decide⟩

theorem addError_none_errorMessages (s : ErrorSink) :
    (addError s none).errorMessages = s.errorMessages := by
  rcases s with ⟨cnt, buf, sz⟩
  cases cnt <;> cases buf <;> simp [addError]

theorem text_of_hasBuffer (s : ErrorSink) (buf : List Char) (C : Nat)
    (hbuf : s.errorMessages = some buf) (hlen : buf.length = C)
    (hsize : s.errorMsgBufferSize = (C : Int)) : s.text = cstr buf := by
  unfold ErrorSink.text
  rw [hbuf, hsize]
  simp only [Int.toNat_ofNat]
  rw [List.take_of_length_le (by omega)]

theorem addError_hasBuffer (s : ErrorSink) (C : Nat) (m : Option (List Char))
    (h : s.HasBuffer C) :
    (addError s m).HasBuffer C ∧ s.text <+: (addError s m).text ∧
      (∀ msg, m = some msg → 2 ≤ C → cstr msg ≠ [] → (addError s m).text ≠ []) := by
  obtain ⟨buf, hbuf, hlen, hsize, hterm⟩ := h
  have hs := text_of_hasBuffer s buf C hbuf hlen hsize
  cases m with
  | none =>
    have e := addError_none_errorMessages s
    have hb : (addError s none).HasBuffer C :=
      ⟨buf, by rw [e, hbuf], hlen, by rw [addError_errorMsgBufferSize, hsize], hterm⟩
    refine ⟨hb, ?_, fun msg hmsg => by cases hmsg⟩
    rw [hs, text_of_hasBuffer _ buf C (by rw [e, hbuf]) hlen
      (by rw [addError_errorMsgBufferSize, hsize])]
  | some msg =>
    have hC : 0 < C := by omega
    have hsz : 0 < s.errorMsgBufferSize := by rw [hsize]; exact_mod_cast hC
    have hnat : s.errorMsgBufferSize.toNat = C := by rw [hsize]; simp
    have e : (addError s (some msg)).errorMessages = some (strncat_s_TRUNCATE buf C msg) := by
      rw [addError_errorMessages s buf msg hbuf hsz, hnat]
    have hl : (strncat_s_TRUNCATE buf C msg).length = C := by
      rw [strncat_s_TRUNCATE_length, hlen]
    have ht := strncat_s_TRUNCATE_text buf msg C hterm (by omega)
    rw [List.take_of_length_le (by omega)] at ht
    have hterm1 : (cstr (strncat_s_TRUNCATE buf C msg)).length < C := by
      rw [ht, List.length_take]; omega
    have hs1 := text_of_hasBuffer (addError s (some msg)) _ C e hl
      (by rw [addError_errorMsgBufferSize, hsize])
    refine ⟨⟨_, e, hl, by rw [addError_errorMsgBufferSize, hsize], hterm1⟩, ?_, ?_⟩
    · rw [hs, hs1, ht, List.take_append_eq_append_take,
        List.take_of_length_le (by omega : (cstr buf).length ≤ C - 1)]
      exact List.prefix_append _ _
    · intro msg1 hmsg hC2 hne
      cases hmsg
      rw [hs1, ht]
      intro hnil
      have hlen0 := congrArg List.length hnil
      rw [List.length_take, List.length_append] at hlen0
      have : 0 < (cstr msg).length := List.length_pos.2 hne
      simp only [List.length_nil] at hlen0
      omega

/-! ## Theorems: the accessor builders -/

theorem and_high_mask (w k y : Nat) (hk : k ≤ w) (hy : y < 2 ^ w) :
    y &&& (2 ^ w - 2 ^ k) = y / 2 ^ k * 2 ^ k := by
  have hm : 2 ^ w - 2 ^ k = 2 ^ k * (2 ^ (w - k) - 1) := by
    rw [Nat.mul_sub, ← pow_add, Nat.add_sub_cancel' hk, mul_one]
  apply Nat.eq_of_testBit_eq
  intro i
  rw [Nat.testBit_and, hm, Nat.testBit_mul_pow_two, Nat.testBit_two_pow_sub_one,
    Nat.mul_comm (y / 2 ^ k), Nat.testBit_mul_pow_two, ← Nat.shiftRight_eq_div_pow,
    Nat.testBit_shiftRight]
  by_cases hik : k ≤ i
  · have e : k + (i - k) = i := by omega
    rw [e]
    by_cases hiw : i < w
    · have : i - k < w - k := by omega
      simp [hik, this]
    · have hy2 : y < 2 ^ i :=
        lt_of_lt_of_le hy (Nat.pow_le_pow_right (by decide) (by omega))
      simp [Nat.testBit_lt_two_pow hy2]
  · simp [hik]

theorem ROUNDUP_eq (w x : Nat) (h : x + 7 < 2 ^ w) : ROUNDUP w x = (x + 7) / 8 * 8 := by
  have hw : 3 ≤ w := by
    by_contra hlt
    have : 2 ^ w ≤ 2 ^ 2 := Nat.pow_le_pow_right (by decide) (by omega)
    omega
  have h8 : (2 : Nat) ^ 3 ≤ 2 ^ w := Nat.pow_le_pow_right (by decide) hw
  have hmask : 2 ^ w - 1 - (8 % 2 ^ w + 2 ^ w - 1) % 2 ^ w = 2 ^ w - 2 ^ 3 := by
    rcases Nat.eq_or_lt_of_le h8 with he | hl
    · rw [← he]; decide
    · have e1 : 8 % 2 ^ w = 8 := Nat.mod_eq_of_lt (by omega)
      have e2 : (8 + 2 ^ w - 1) % 2 ^ w = 7 := by
        have : 8 + 2 ^ w - 1 = 7 + 2 ^ w := by omega
        rw [this, Nat.add_mod_right, Nat.mod_eq_of_lt (by omega)]
      rw [e1, e2]
      omega
  unfold ROUNDUP ROUNDUP_ ROUNDUP_AMOUNT
  rw [hmask, Nat.mod_eq_of_lt (by omega : x < 2 ^ w), Nat.mod_eq_of_lt h,
    and_high_mask w 3 (x + 7) hw h]
  norm_num

theorem ROUND_four_eq (w x : Nat) (h : x + 3 < 2 ^ w) : ROUND w x 4 = (x + 3) / 4 * 4 := by
  have hw : 2 ≤ w := by
    by_contra hlt
    have : 2 ^ w ≤ 2 ^ 1 := Nat.pow_le_pow_right (by decide) (by omega)
    omega
  have h4 : (2 : Nat) ^ 2 ≤ 2 ^ w := Nat.pow_le_pow_right (by decide) hw
  have hmask : 2 ^ w - 1 - (4 - 1) % 2 ^ w = 2 ^ w - 2 ^ 2 := by
    rw [Nat.mod_eq_of_lt (by omega)]
    omega
  unfold ROUND
  rw [hmask, Nat.mod_eq_of_lt h, and_high_mask w 2 (x + 3) hw h]
  norm_num

/-- C10. Over an offset type of `w` bits: when `x + 7` does not overflow,
`ROUNDUP(x)` of the header is a multiple of 8, at least `x`, at most any other
such multiple, below `x + 8`, and a fixed point of `ROUNDUP`; when `x + 3` does
not overflow, `ROUND(x,4)` of the .cpp is the least multiple of 4 that is at
least `x`. -/
theorem ROUNDUP_least_multiple (w x : Nat) :
    (x + 7 < 2 ^ w →
      8 ∣ ROUNDUP w x ∧ x ≤ ROUNDUP w x ∧ (∀ m, 8 ∣ m → x ≤ m → ROUNDUP w x ≤ m) ∧
      ROUNDUP w x < x + 8 ∧ ROUNDUP w (ROUNDUP w x) = ROUNDUP w x) ∧
    (x + 3 < 2 ^ w →
      4 ∣ ROUND w x 4 ∧ x ≤ ROUND w x 4 ∧ (∀ m, 4 ∣ m → x ≤ m → ROUND w x 4 ≤ m)) := by
  constructor
  · intro h
    have hw : 3 ≤ w := by
      by_contra hlt
      have : 2 ^ w ≤ 2 ^ 2 := Nat.pow_le_pow_right (by decide) (by omega)
      omega
    have hdvd : 8 ∣ 2 ^ w := by
      have : (2 : Nat) ^ 3 ∣ 2 ^ w := Nat.pow_dvd_pow 2 hw
      simpa using this
    have e := ROUNDUP_eq w x h
    have h2 : ROUNDUP w x + 7 < 2 ^ w := by
      rw [e]
      obtain ⟨q, hq⟩ := hdvd
      omega
    refine ⟨?_, ?_, ?_, ?_, ?_⟩
    · rw [e]; exact Nat.dvd_mul_left 8 _
    · rw [e]; omega
    · rintro m ⟨q, rfl⟩ hm
      rw [e]; omega
    · rw [e]; omega
    · rw [ROUNDUP_eq w _ h2, e]; omega
  · intro h
    have e := ROUND_four_eq w x h
    refine ⟨?_, ?_, ?_⟩
    · rw [e]; exact Nat.dvd_mul_left 4 _
    · rw [e]; omega
    · rintro m ⟨q, rfl⟩ hm
      rw [e]; omega

theorem ROUNDUP_least_multiple_witness :
    ((13 : Nat) + 7 < 2 ^ 64 ∧ ROUNDUP 64 13 = 16 ∧ ROUND 32 13 4 = 16) ∧
    (8 ∣ ROUNDUP 64 13 ∧ 13 ≤ ROUNDUP 64 13 ∧ (∀ m, 8 ∣ m → 13 ≤ m → ROUNDUP 64 13 ≤ m) ∧
      ROUNDUP 64 13 < 13 + 8 ∧ ROUNDUP 64 (ROUNDUP 64 13) = ROUNDUP 64 13) ∧
    (4 ∣ ROUND 32 13 4 ∧ 13 ≤ ROUND 32 13 4 ∧ (∀ m, 4 ∣ m → 13 ≤ m → ROUND 32 13 4 ≤ m)) :=
  ⟨by decide, (ROUNDUP_least_multiple 64 13).1 (by decide),
    (ROUNDUP_least_multiple 32 13).2 (by decide)⟩

/-! ## Theorems: `sqlExecute` -/

theorem oleCheck_fst (hr : Int) (obj : Option Handle) (s : ErrorSink) :
    (oleCheck hr obj s).1 = hr := rfl

theorem oleCheck_of_succeeded (hr : Int) (obj : Option Handle) (s : ErrorSink)
    (h : FAILED hr = false) : (oleCheck hr obj s).2 = s := by
  simp [oleCheck, h]

theorem failed_iff (hr : Int) : FAILED hr = true ↔ hr < 0 := by
  simp [FAILED]

theorem not_failed_iff (hr : Int) : FAILED hr = false ↔ ¬ hr < 0 := by
  simp [FAILED]

/-- What `sqlExecute` hands back, path by path: no buffer when the allocation
fails, an empty text and the sink of the failing `oleCheck` when a provider
call fails, the closing lines when nothing fails. -/
theorem sqlExecute_summary (p : ExecProvider) (s : ErrorSink)
    (hcom : SucceededGivesInterface p) :
    ∃ r, sqlExecute p s = some r ∧
      ((p.malloc = false ∧ r.ret = none ∧
          r.sink = addError s (some "Falha em alocar resultBuffer.\n".toList)) ∨
        (p.malloc = true ∧ r.ret = some [] ∧
          ∃ hr obj, FAILED hr = true ∧ r.sink = (oleCheck hr obj s).2) ∨
        (p.fails = false ∧ r.sink = s ∧
          r.ret = some (finishResult 8192 [] 0 p.execute.2.1))) := by
  obtain ⟨c1, c2, c3, c4⟩ := hcom
  unfold sqlExecute
  simp only [oleCheck_fst]
  by_cases hm : p.malloc = false
  · simp [hm]
  simp only [Bool.not_eq_false] at hm
  by_cases f1 : FAILED p.queryCreateSession.1 = true
  · have f1a := (failed_iff _).1 f1
    simp only [hm, f1a]
    exact ⟨_, rfl, Or.inr (Or.inl ⟨trivial, rfl, _, _, f1, rfl⟩)⟩
  simp only [Bool.not_eq_true] at f1
  obtain ⟨a1, h1⟩ := Option.ne_none_iff_exists'.1 (c1 f1)
  have f1a := (not_failed_iff _).1 f1
  by_cases f2 : FAILED p.createSession.1 = true
  · have f2a := (failed_iff _).1 f2
    simp only [hm, f1a, f2a, h1, oleCheck_of_succeeded _ _ _ f1]
    exact ⟨_, rfl, Or.inr (Or.inl ⟨trivial, rfl, _, _, f2, rfl⟩)⟩
  simp only [Bool.not_eq_true] at f2
  obtain ⟨a2, h2⟩ := Option.ne_none_iff_exists'.1 (c2 f2)
  have f2a := (not_failed_iff _).1 f2
  by_cases f3 : FAILED p.queryCreateCommand.1 = true
  · have f3a := (failed_iff _).1 f3
    simp only [hm, f1a, f2a, f3a, h1, h2, oleCheck_of_succeeded _ _ _ f1,
      oleCheck_of_succeeded _ _ _ f2]
    exact ⟨_, rfl, Or.inr (Or.inl ⟨trivial, rfl, _, _, f3, rfl⟩)⟩
  simp only [Bool.not_eq_true] at f3
  obtain ⟨a3, h3⟩ := Option.ne_none_iff_exists'.1 (c3 f3)
  have f3a := (not_failed_iff _).1 f3
  by_cases f4 : FAILED p.createCommand.1 = true
  · have f4a := (failed_iff _).1 f4
    simp only [hm, f1a, f2a, f3a, f4a, h1, h2, h3, oleCheck_of_succeeded _ _ _ f1,
      oleCheck_of_succeeded _ _ _ f2, oleCheck_of_succeeded _ _ _ f3]
    exact ⟨_, rfl, Or.inr (Or.inl ⟨trivial, rfl, _, _, f4, rfl⟩)⟩
  simp only [Bool.not_eq_true] at f4
  obtain ⟨a4, h4⟩ := Option.ne_none_iff_exists'.1 (c4 f4)
  have f4a := (not_failed_iff _).1 f4
  by_cases f5 : FAILED p.setCommandText = true
  · have f5a := (failed_iff _).1 f5
    simp only [hm, f1a, f2a, f3a, f4a, f5a, h1, h2, h3, h4, oleCheck_of_succeeded _ _ _ f1,
      oleCheck_of_succeeded _ _ _ f2, oleCheck_of_succeeded _ _ _ f3,
      oleCheck_of_succeeded _ _ _ f4]
    exact ⟨_, rfl, Or.inr (Or.inl ⟨trivial, rfl, _, _, f5, rfl⟩)⟩
  simp only [Bool.not_eq_true] at f5
  have f5a := (not_failed_iff _).1 f5
  by_cases f6 : FAILED p.execute.1 = true
  · have f6a := (failed_iff _).1 f6
    simp only [hm, f1a, f2a, f3a, f4a, f5a, f6a, h1, h2, h3, h4, oleCheck_of_succeeded _ _ _ f1,
      oleCheck_of_succeeded _ _ _ f2, oleCheck_of_succeeded _ _ _ f3,
      oleCheck_of_succeeded _ _ _ f4, oleCheck_of_succeeded _ _ _ f5]
    exact ⟨_, rfl, Or.inr (Or.inl ⟨trivial, rfl, _, _, f6, rfl⟩)⟩
  simp only [Bool.not_eq_true] at f6
  have f6a := (not_failed_iff _).1 f6
  simp only [hm, f1a, f2a, f3a, f4a, f5a, f6a, h1, h2, h3, h4, oleCheck_of_succeeded _ _ _ f1,
    oleCheck_of_succeeded _ _ _ f2, oleCheck_of_succeeded _ _ _ f3,
    oleCheck_of_succeeded _ _ _ f4, oleCheck_of_succeeded _ _ _ f5,
    oleCheck_of_succeeded _ _ _ f6]
  refine ⟨_, rfl, Or.inr (Or.inr ⟨?_, rfl, rfl⟩)⟩
  simp [ExecProvider.fails, hm, f1, f2, f3, f4, f5, f6]

theorem cstr_hresultMessage_ne_nil (hr : Int) : cstr (hresultMessage hr) ≠ [] := by
  have e : "HRESULT falhou: 0x".toList = 'H' :: "RESULT falhou: 0x".toList := by decide
  have hH : ('H' != NUL) = true := by decide
  unfold hresultMessage snprintf
  simp only [e, List.cons_append]
  show cstr (List.take (62 + 1) _) ≠ []
  rw [List.take_succ_cons]
  simp only [cstr, List.takeWhile_cons, hH, if_true]
  exact List.cons_ne_nil _ _

theorem oleCheck_failed_count (hr : Int) (obj : Option Handle) (s : ErrorSink) (c : Int)
    (hf : FAILED hr = true) (hc : s.errorCount = some c) (hlo : INT_MIN ≤ c)
    (hhi : c + 2 ≤ INT_MAX) :
    ∃ c1, (oleCheck hr obj s).2.errorCount = some c1 ∧ c < c1 ∧ c1 ≤ c + 2 := by
  unfold INT_MIN at hlo
  unfold INT_MAX at hhi
  have w1 : wrapInt32 (c + 1) = c + 1 :=
    wrapInt32_of_range _ (by unfold INT_MIN; omega) (by unfold INT_MAX; omega)
  have w2 : wrapInt32 (c + 1 + 1) = c + 2 := by
    rw [wrapInt32_of_range _ (by unfold INT_MIN; omega) (by unfold INT_MAX; omega)]; omega
  unfold oleCheck
  cases obj with
  | none =>
    simp only [hf, Option.isSome_none, Bool.and_false, Bool.false_eq_true, if_false, hc,
      Option.isSome_some, Bool.and_true, if_true, addError_errorCount, Option.map_some', w1]
    exact ⟨c + 1, rfl, by omega, by omega⟩
  | some a =>
    simp only [hf, Option.isSome_some, Bool.and_true, if_true, addError_errorCount, hc,
      Option.map_some', w1, w2]
    exact ⟨c + 2, rfl, by omega, by omega⟩

theorem oleCheck_failed_text (hr : Int) (obj : Option Handle) (s : ErrorSink) (C : Nat)
    (hf : FAILED hr = true) (hc : s.errorCount ≠ none) (hb : s.HasBuffer C) (hC : 2 ≤ C) :
    (oleCheck hr obj s).2.text ≠ [] := by
  obtain ⟨c, hc⟩ := Option.ne_none_iff_exists'.1 hc
  unfold oleCheck
  cases obj with
  | none =>
    simp only [hf, Option.isSome_none, Bool.and_false, Bool.false_eq_true, if_false, hc,
      Option.isSome_some, Bool.and_true, if_true]
    exact (addError_hasBuffer s C _ hb).2.2 _ rfl hC (cstr_hresultMessage_ne_nil hr)
  | some a =>
    simp only [hf, Option.isSome_some, Bool.and_true, if_true, addError_errorCount, hc,
      Option.map_some']
    exact (addError_hasBuffer _ C _ (addError_hasBuffer s C _ hb).1).2.2 _ rfl hC
      (cstr_hresultMessage_ne_nil hr)

/-- C3, the code at the claim's input. When every provider call succeeds and
the row count is 0, the text `sqlExecute` returns is the two closing lines
alone: it does not open an object, and names neither `columns` nor `rows`. -/
theorem sqlExecute_zero_rows_text :
    (sqlExecute zeroRowsProvider sink32).map (fun r => r.ret) =
      some (some "\n  \"rowsAffected\": 0\n\x7d\n".toList) ∧
    ¬ ResultDocumentShape "\n  \"rowsAffected\": 0\n\x7d\n".toList ∧
    ("\n  \"rowsAffected\": 0\n\x7d\n".toList.dropWhile isJsonSpace).head? = some '"' ∧
    ¬ "\"columns\"".toList <:+: "\n  \"rowsAffected\": 0\n\x7d\n".toList ∧
    ¬ "\"rows\"".toList <:+: "\n  \"rowsAffected\": 0\n\x7d\n".toList := by
  refine ⟨by decide, by decide, by decide, by decide, by decide⟩

/-- C4, the claim refuted. With a null counter, a failure of the first provider
call leaves the caller with a non-null, empty text, an empty log and no count:
neither a document nor a non-empty error log. -/
theorem sqlExecute_failure_unreported :
    ∃ r, sqlExecute noInterfaceProvider sinkNoCounter = some r ∧
      r.ret = some [] ∧ r.sink.text = [] ∧ r.sink.errorCount = none ∧
      ¬ DocumentOrErrorLog r := by
  refine ⟨⟨some [], sinkNoCounter, [.call .QueryInterface_IDBCreateSession]⟩, by decide, rfl,
    by decide, rfl, ?_⟩
  rintro (⟨t, ht, hshape⟩ | ⟨-, htext, -⟩)
  · cases ht
    revert hshape
    decide
  · revert htext
    decide

/-- C4, amended. When a step of `sqlExecute` fails fatally (the provider
otherwise giving the interfaces it reports), the call returns no partial or
successful-looking text: a null pointer when the allocation failed, and else
the still-empty result buffer. When the caller passed a counter, it has grown
by one or two; when the caller also passed a buffer of at least two bytes
holding a terminated string, the log text is not empty afterwards. -/
theorem sqlExecute_failure_gives_no_text (p : ExecProvider) (s : ErrorSink)
    (hcom : SucceededGivesInterface p) (hfail : p.fails = true) :
    ∃ r, sqlExecute p s = some r ∧
      (r.ret = none ∨ r.ret = some []) ∧
      (r.ret = none ↔ p.malloc = false) ∧
      (∀ c, s.errorCount = some c → INT_MIN ≤ c → c + 2 ≤ INT_MAX →
        ∃ c1, r.sink.errorCount = some c1 ∧ c < c1 ∧ c1 ≤ c + 2) ∧
      (∀ C, s.errorCount ≠ none → s.HasBuffer C → 2 ≤ C → r.sink.text ≠ []) := by
  obtain ⟨r, hr, h | h | h⟩ := sqlExecute_summary p s hcom
  · obtain ⟨hm, hret, hsink⟩ := h
    refine ⟨r, hr, Or.inl hret, ⟨fun _ => hm, fun _ => hret⟩, ?_, ?_⟩
    · intro c hc hlo hhi
      unfold INT_MIN at hlo
      unfold INT_MAX at hhi
      refine ⟨c + 1, ?_, by omega, by omega⟩
      rw [hsink, addError_errorCount, hc, Option.map_some',
        wrapInt32_of_range _ (by unfold INT_MIN; omega) (by unfold INT_MAX; omega)]
    · intro C _ hb hC
      rw [hsink]
      exact (addError_hasBuffer s C _ hb).2.2 _ rfl hC (by decide)
  · obtain ⟨hm, hret, hr0, obj, hf, hsink⟩ := h
    have hiff : r.ret = none ↔ p.malloc = false := by
      rw [hret, hm]
      simp
    refine ⟨r, hr, Or.inr hret, hiff, ?_, ?_⟩
    · intro c hc hlo hhi
      rw [hsink]
      exact oleCheck_failed_count hr0 obj s c hf hc hlo hhi
    · intro C hc hb hC
      rw [hsink]
      exact oleCheck_failed_text hr0 obj s C hf hc hb hC
  · rw [h.1] at hfail
    cases hfail

theorem sqlExecute_failure_gives_no_text_witness :
    ∃ r, sqlExecute noCommandProvider sink32 = some r ∧
      (r.ret = none ∨ r.ret = some []) ∧
      (r.ret = none ↔ noCommandProvider.malloc = false) ∧
      (∀ c, sink32.errorCount = some c → INT_MIN ≤ c → c + 2 ≤ INT_MAX →
        ∃ c1, r.sink.errorCount = some c1 ∧ c < c1 ∧ c1 ≤ c + 2) ∧
      (∀ C, sink32.errorCount ≠ none → sink32.HasBuffer C → 2 ≤ C → r.sink.text ≠ []) :=
  sqlExecute_failure_gives_no_text noCommandProvider sink32
    ⟨fun _ => by decide, fun _ => by decide, fun _ => by decide, fun h => by revert h; decide⟩
    (by decide)

theorem releases_append (a b : List ExecEvent) (j : Iface) (h : Handle) :
    releases (a ++ b) j h = releases a j h + releases b j h := by
  simp [releases, List.count_append]

theorem acquisitions_append (a b : List ExecEvent) (j : Iface) (h : Handle) :
    acquisitions (a ++ b) j h = acquisitions a j h + acquisitions b j h := by
  simp [acquisitions, List.count_append]

theorem releases_call (c : ExecCall) (j : Iface) (h : Handle) :
    releases [ExecEvent.call c] j h = 0 := by
  simp [releases, List.count_cons]

theorem acquisitions_call (c : ExecCall) (j : Iface) (h : Handle) :
    acquisitions [ExecEvent.call c] j h = 0 := by
  simp [acquisitions, List.count_cons]

theorem releases_acquired (hr : Int) (i : Iface) (o : Option Handle) (j : Iface) (h : Handle) :
    releases (acquired hr i o) j h = 0 := by
  cases o <;> simp [releases, acquired, List.count_cons]
  split <;> simp

theorem acquisitions_releaseIf (i : Iface) (o : Option Handle) (j : Iface) (h : Handle) :
    acquisitions (releaseIf i o) j h = 0 := by
  cases o <;> simp [acquisitions, releaseIf, List.count_cons]

theorem releases_releaseIf (i : Iface) (o : Option Handle) (j : Iface) (h : Handle) :
    releases (releaseIf i o) j h = slotCount i o j h := by
  cases o with
  | none => simp [releases, releaseIf, slotCount]
  | some a =>
    simp only [releases, releaseIf, slotCount, List.count_cons, List.count_nil, zero_add,
      beq_iff_eq, ExecEvent.release.injEq, Option.some.injEq]

theorem acquisitions_acquired (hr : Int) (i : Iface) (o : Option Handle) (j : Iface)
    (h : Handle) (hnull : FAILED hr = true → o = none) :
    acquisitions (acquired hr i o) j h = slotCount i o j h := by
  cases o with
  | none => simp [acquisitions, acquired, slotCount]
  | some a =>
    have hf : FAILED hr = false := by
      cases hfv : FAILED hr
      · rfl
      · cases hnull hfv
    simp only [acquisitions, acquired, slotCount, hf, List.count_cons, List.count_nil, zero_add,
      beq_iff_eq, ExecEvent.acquire.injEq, Option.some.injEq, Bool.false_eq_true, if_false]

theorem acquisitions_acquired_of_succeeded (hr : Int) (i : Iface) (o : Option Handle)
    (j : Iface) (h : Handle) (hf : FAILED hr = false) :
    acquisitions (acquired hr i o) j h = slotCount i o j h :=
  acquisitions_acquired hr i o j h (fun hfv => by rw [hf] at hfv; cases hfv)

theorem acquisitions_acquired_none (hr : Int) (i j : Iface) (h : Handle) :
    acquisitions (acquired hr i none) j h = 0 := by
  simp [acquisitions, acquired]

theorem slotCount_none (i j : Iface) (h : Handle) : slotCount i none j h = 0 := by
  simp [slotCount]

theorem releases_CLEANUP (l : Locals) (j : Iface) (h : Handle) :
    releases (CLEANUP l) j h =
      slotCount .pIRowset l.pIRowset j h + slotCount .pICommandText l.pICommandText j h +
        slotCount .pIDBCreateCommand l.pIDBCreateCommand j h +
        slotCount .pSession l.pSession j h +
        slotCount .pIDBCreateSession l.pIDBCreateSession j h +
        slotCount .pIColumnsInfo l.pIColumnsInfo j h := by
  simp only [CLEANUP, releases_append, releases_releaseIf]

theorem acquisitions_CLEANUP (l : Locals) (j : Iface) (h : Handle) :
    acquisitions (CLEANUP l) j h = 0 := by
  simp only [CLEANUP, acquisitions_append, acquisitions_releaseIf]

theorem slotCount_sum_le_one (o1 o2 o3 o4 o5 : Option Handle) (j : Iface) (h : Handle) :
    slotCount .pIDBCreateSession o1 j h + slotCount .pSession o2 j h +
      slotCount .pIDBCreateCommand o3 j h + slotCount .pICommandText o4 j h +
      slotCount .pIRowset o5 j h ≤ 1 := by
  cases j <;> simp [slotCount] <;> split <;> simp

theorem callsOf_append (a b : List ExecEvent) : callsOf (a ++ b) = callsOf a ++ callsOf b := by
  simp [callsOf, List.filterMap_append]

theorem callsOf_nil : callsOf [] = [] := rfl

theorem callsOf_call (c : ExecCall) : callsOf [ExecEvent.call c] = [c] := by
  simp [callsOf, List.filterMap_cons]

theorem callsOf_cons_call (c : ExecCall) (es : List ExecEvent) :
    callsOf (ExecEvent.call c :: es) = c :: callsOf es := by
  simp [callsOf, List.filterMap_cons]

theorem callsOf_acquired (hr : Int) (i : Iface) (o : Option Handle) :
    callsOf (acquired hr i o) = [] := by
  cases o with
  | none => simp [callsOf, acquired]
  | some a =>
    unfold acquired
    split <;> simp [callsOf, List.filterMap_cons]

theorem callsOf_releaseIf (i : Iface) (o : Option Handle) : callsOf (releaseIf i o) = [] := by
  cases o <;> simp [callsOf, releaseIf, List.filterMap_cons]

theorem callsOf_CLEANUP (l : Locals) : callsOf (CLEANUP l) = [] := by
  simp only [CLEANUP, callsOf_append, callsOf_releaseIf, List.append_nil]

/-- C9. On every exit path of `sqlExecute` (the provider leaving a null
out-pointer when a call fails and giving its interface when a call succeeds),
the call returns, having made exactly the provider calls up to the first
failure; and for every pointer and handle, the interface has been released
exactly once when the provider handed it over in one of those calls, and not
at all otherwise. The acquisitions recorded are the same, so the releases equal
the acquisitions, which are at most one. -/
theorem sqlExecute_releases_what_it_acquired (p : ExecProvider) (s : ErrorSink)
    (hnull : FailedLeavesNull p) (hcom : SucceededGivesInterface p) :
    ∃ r, sqlExecute p s = some r ∧
      callsOf r.events = p.callsMade ∧
      ∀ i h, releases r.events i h = (if p.handsOver i h = true then 1 else 0) ∧
        acquisitions r.events i h = (if p.handsOver i h = true then 1 else 0) ∧
        releases r.events i h = acquisitions r.events i h ∧
        acquisitions r.events i h ≤ 1 := by
  suffices hmain : ∃ r, sqlExecute p s = some r ∧
      callsOf r.events = p.callsMade ∧
      ∀ i h, releases r.events i h = (if p.handsOver i h = true then 1 else 0) ∧
        acquisitions r.events i h = (if p.handsOver i h = true then 1 else 0) by
    obtain ⟨r, hr, hcalls, hcount⟩ := hmain
    refine ⟨r, hr, hcalls, fun i h => ⟨(hcount i h).1, (hcount i h).2, ?_, ?_⟩⟩
    · rw [(hcount i h).1, (hcount i h).2]
    · rw [(hcount i h).2]
      split <;> omega
  obtain ⟨c1, c2, c3, c4⟩ := hcom
  obtain ⟨n1, n2, n3, n4, n6⟩ := hnull
  unfold sqlExecute
  simp only [oleCheck_fst]
  by_cases hm : p.malloc = false
  · simp only [hm, Bool.not_false, if_true]
    refine ⟨_, rfl, ?_, fun i h => ?_⟩
    · simp [callsOf, ExecProvider.callsMade, ExecProvider.reaches, List.filter_cons, hm]
    · cases i <;>
      simp [releases, acquisitions, ExecProvider.handsOver, ExecProvider.reaches, hm]
  simp only [Bool.not_eq_false] at hm
  by_cases f1 : FAILED p.queryCreateSession.1 = true
  · have f1a := (failed_iff _).1 f1
    simp only [hm, f1a, n1 f1]
    refine ⟨_, rfl, ?_, fun i h => ?_⟩
    · simp only [callsOf_append, callsOf_nil, callsOf_call, callsOf_cons_call, callsOf_acquired,
      callsOf_CLEANUP,
        List.append_nil, List.nil_append, List.singleton_append, List.cons_append]
      simp [callsOf_nil, ExecProvider.callsMade, ExecProvider.reaches, List.filter_cons, hm, f1, n1 f1]
    · simp only [releases_append, acquisitions_append, releases_call, acquisitions_call,
        releases_acquired, releases_CLEANUP, acquisitions_CLEANUP, slotCount_none,
        acquisitions_acquired_none]
      cases i <;>
      simp [ExecProvider.handsOver, ExecProvider.reaches, slotCount, hm, f1, n1 f1]
  simp only [Bool.not_eq_true] at f1
  obtain ⟨a1, h1⟩ := Option.ne_none_iff_exists'.1 (c1 f1)
  have f1a := (not_failed_iff _).1 f1
  by_cases f2 : FAILED p.createSession.1 = true
  · have f2a := (failed_iff _).1 f2
    simp only [hm, h1, f1a, f2a, n2 f2]
    refine ⟨_, rfl, ?_, fun i h => ?_⟩
    · simp only [callsOf_append, callsOf_nil, callsOf_call, callsOf_cons_call, callsOf_acquired,
      callsOf_CLEANUP,
        List.append_nil, List.nil_append, List.singleton_append, List.cons_append]
      simp [callsOf_nil, ExecProvider.callsMade, ExecProvider.reaches, List.filter_cons, hm, f1, f2, h1, n2 f2]
    · simp only [releases_append, acquisitions_append, releases_call, acquisitions_call,
        releases_acquired, releases_CLEANUP, acquisitions_CLEANUP, slotCount_none,
        acquisitions_acquired_none,
      acquisitions_acquired_of_succeeded _ _ _ _ _ f1]
      cases i <;>
      simp [ExecProvider.handsOver, ExecProvider.reaches, slotCount, hm, f1, f2, h1, n2 f2]
  simp only [Bool.not_eq_true] at f2
  obtain ⟨a2, h2⟩ := Option.ne_none_iff_exists'.1 (c2 f2)
  have f2a := (not_failed_iff _).1 f2
  by_cases f3 : FAILED p.queryCreateCommand.1 = true
  · have f3a := (failed_iff _).1 f3
    simp only [hm, h1, f1a, h2, f2a, f3a, n3 f3]
    refine ⟨_, rfl, ?_, fun i h => ?_⟩
    · simp only [callsOf_append, callsOf_nil, callsOf_call, callsOf_cons_call, callsOf_acquired,
      callsOf_CLEANUP,
        List.append_nil, List.nil_append, List.singleton_append, List.cons_append]
      simp [callsOf_nil, ExecProvider.callsMade, ExecProvider.reaches, List.filter_cons, hm, f1, f2, f3, h1, h2, n3 f3]
    · simp only [releases_append, acquisitions_append, releases_call, acquisitions_call,
        releases_acquired, releases_CLEANUP, acquisitions_CLEANUP, slotCount_none,
        acquisitions_acquired_none,
      acquisitions_acquired_of_succeeded _ _ _ _ _ f1,
      acquisitions_acquired_of_succeeded _ _ _ _ _ f2]
      cases i <;>
      simp [ExecProvider.handsOver, ExecProvider.reaches, slotCount, hm, f1, f2, f3, h1, h2, n3 f3]
  simp only [Bool.not_eq_true] at f3
  obtain ⟨a3, h3⟩ := Option.ne_none_iff_exists'.1 (c3 f3)
  have f3a := (not_failed_iff _).1 f3
  by_cases f4 : FAILED p.createCommand.1 = true
  · have f4a := (failed_iff _).1 f4
    simp only [hm, h1, f1a, h2, f2a, h3, f3a, f4a, n4 f4]
    refine ⟨_, rfl, ?_, fun i h => ?_⟩
    · simp only [callsOf_append, callsOf_nil, callsOf_call, callsOf_cons_call, callsOf_acquired,
      callsOf_CLEANUP,
        List.append_nil, List.nil_append, List.singleton_append, List.cons_append]
      simp [callsOf_nil, ExecProvider.callsMade, ExecProvider.reaches, List.filter_cons, hm, f1, f2, f3, f4, h1, h2, h3, n4 f4]
    · simp only [releases_append, acquisitions_append, releases_call, acquisitions_call,
        releases_acquired, releases_CLEANUP, acquisitions_CLEANUP, slotCount_none,
        acquisitions_acquired_none,
      acquisitions_acquired_of_succeeded _ _ _ _ _ f1,
      acquisitions_acquired_of_succeeded _ _ _ _ _ f2,
      acquisitions_acquired_of_succeeded _ _ _ _ _ f3]
      cases i <;>
      simp [ExecProvider.handsOver, ExecProvider.reaches, slotCount, hm, f1, f2, f3, f4, h1, h2, h3, n4 f4]
  simp only [Bool.not_eq_true] at f4
  obtain ⟨a4, h4⟩ := Option.ne_none_iff_exists'.1 (c4 f4)
  have f4a := (not_failed_iff _).1 f4
  by_cases f5 : FAILED p.setCommandText = true
  · have f5a := (failed_iff _).1 f5
    simp only [hm, h1, f1a, h2, f2a, h3, f3a, h4, f4a, f5a]
    refine ⟨_, rfl, ?_, fun i h => ?_⟩
    · simp only [callsOf_append, callsOf_nil, callsOf_call, callsOf_cons_call, callsOf_acquired,
      callsOf_CLEANUP,
        List.append_nil, List.nil_append, List.singleton_append, List.cons_append]
      simp [callsOf_nil, ExecProvider.callsMade, ExecProvider.reaches, List.filter_cons, hm, f1, f2, f3, f4, f5, h1, h2, h3, h4]
    · simp only [releases_append, acquisitions_append, releases_call, acquisitions_call,
        releases_acquired, releases_CLEANUP, acquisitions_CLEANUP, slotCount_none,
        acquisitions_acquired_none,
      acquisitions_acquired_of_succeeded _ _ _ _ _ f1,
      acquisitions_acquired_of_succeeded _ _ _ _ _ f2,
      acquisitions_acquired_of_succeeded _ _ _ _ _ f3,
      acquisitions_acquired_of_succeeded _ _ _ _ _ f4]
      cases i <;>
      simp [ExecProvider.handsOver, ExecProvider.reaches, slotCount, hm, f1, f2, f3, f4, f5, h1, h2, h3, h4]
  simp only [Bool.not_eq_true] at f5
  have f5a := (not_failed_iff _).1 f5
  by_cases f6 : FAILED p.execute.1 = true
  · have f6a := (failed_iff _).1 f6
    simp only [hm, h1, f1a, h2, f2a, h3, f3a, h4, f4a, f5a, f6a, n6 f6]
    refine ⟨_, rfl, ?_, fun i h => ?_⟩
    · simp only [callsOf_append, callsOf_nil, callsOf_call, callsOf_cons_call, callsOf_acquired,
      callsOf_CLEANUP,
        List.append_nil, List.nil_append, List.singleton_append, List.cons_append]
      simp [callsOf_nil, ExecProvider.callsMade, ExecProvider.reaches, List.filter_cons, hm, f1, f2, f3, f4, f5, f6, h1, h2, h3, h4, n6 f6]
    · simp only [releases_append, acquisitions_append, releases_call, acquisitions_call,
        releases_acquired, releases_CLEANUP, acquisitions_CLEANUP, slotCount_none,
        acquisitions_acquired_none,
      acquisitions_acquired_of_succeeded _ _ _ _ _ f1,
      acquisitions_acquired_of_succeeded _ _ _ _ _ f2,
      acquisitions_acquired_of_succeeded _ _ _ _ _ f3,
      acquisitions_acquired_of_succeeded _ _ _ _ _ f4]
      cases i <;>
      simp [ExecProvider.handsOver, ExecProvider.reaches, slotCount, hm, f1, f2, f3, f4, f5, f6, h1, h2, h3, h4, n6 f6]
  simp only [Bool.not_eq_true] at f6
  have f6a := (not_failed_iff _).1 f6
  simp only [hm, h1, f1a, h2, f2a, h3, f3a, h4, f4a, f5a, f6a]
  refine ⟨_, rfl, ?_, fun i h => ?_⟩
  · simp only [callsOf_append, callsOf_nil, callsOf_call, callsOf_cons_call, callsOf_acquired,
      callsOf_CLEANUP,
      List.append_nil, List.nil_append, List.singleton_append, List.cons_append]
    simp [callsOf_nil, ExecProvider.callsMade, ExecProvider.reaches, List.filter_cons, hm, f1, f2, f3, f4, f5, f6, h1, h2, h3, h4]
  · simp only [releases_append, acquisitions_append, releases_call, acquisitions_call,
      releases_acquired, releases_CLEANUP, acquisitions_CLEANUP, slotCount_none,
      acquisitions_acquired_none,
    acquisitions_acquired_of_succeeded _ _ _ _ _ f1,
    acquisitions_acquired_of_succeeded _ _ _ _ _ f2,
    acquisitions_acquired_of_succeeded _ _ _ _ _ f3,
    acquisitions_acquired_of_succeeded _ _ _ _ _ f4,
    acquisitions_acquired_of_succeeded _ _ _ _ _ f6]
    cases i <;>
    simp [ExecProvider.handsOver, ExecProvider.reaches, slotCount, hm, f1, f2, f3, f4, f5, f6, h1, h2, h3, h4]

theorem sqlExecute_releases_what_it_acquired_witness :
    (∃ r, sqlExecute noCommandProvider sink32 = some r ∧
      callsOf r.events = noCommandProvider.callsMade ∧
      ∀ i h, releases r.events i h = (if noCommandProvider.handsOver i h = true then 1 else 0) ∧
        acquisitions r.events i h = (if noCommandProvider.handsOver i h = true then 1 else 0) ∧
        releases r.events i h = acquisitions r.events i h ∧
        acquisitions r.events i h ≤ 1) ∧
    (sqlExecute noCommandProvider sink32).map
        (fun r => (callsOf r.events, releases r.events .pIDBCreateSession 1,
          releases r.events .pSession 2, releases r.events .pIDBCreateCommand 3,
          releases r.events .pICommandText 4, releases r.events .pIRowset 5)) =
      some ([.QueryInterface_IDBCreateSession, .CreateSession, .QueryInterface_IDBCreateCommand,
        .CreateCommand], 1, 1, 1, 0, 0) :=
  ⟨sqlExecute_releases_what_it_acquired noCommandProvider sink32
      ⟨fun h => by revert h; decide, fun h => by revert h; decide, fun h => by revert h; decide,
        fun _ => by decide, fun h => by revert h; decide⟩
      ⟨fun _ => by decide, fun _ => by decide, fun _ => by decide, fun h => by revert h; decide⟩,
    by decide⟩

/-! ## Theorems: the connection string of `sqlConnect` -/

end DartMssql
